import Mathlib

/-!
Shallow embedding of `ai10_index.py`: a market-capitalization-weighted stock
index that is initialized once from historical data and then updated on a
timer. Prices are modelled as exact rationals, Python dictionaries as
association lists preserving insertion order, and Python exceptions as an
explicit error type threaded through the computation, so that state mutated
before a raise is kept (as in Python) rather than rolled back.

Prices, closes and market caps are numpy/pandas float64 scalars in the
source, so dividing them by zero does not raise: it yields an infinity with
a runtime warning. Only plain-Python divisions (the shares estimate built
from `stock.info` values) can raise `ZeroDivisionError`. ℚ has no
infinities; its total division (`x / 0 = 0`) stands in for those float
paths, and no theorem below inspects the quotient at a zero denominator.
-/

set_option autoImplicit false

namespace AI10

/-- Python exceptions that can arise in the script. -/
inductive PyErr where
  | keyError (key : String)
  | zeroDiv
  | valueError
  | connError
  deriving DecidableEq, Repr

instance {ε α : Type} [DecidableEq ε] [DecidableEq α] : DecidableEq (Except ε α) := fun x y =>
  match x, y with
  | .ok a, .ok b =>
    if h : a = b then .isTrue (by rw [h])
    else .isFalse (fun hh => h (Except.ok.inj hh))
  | .error a, .error b =>
    if h : a = b then .isTrue (by rw [h])
    else .isFalse (fun hh => h (Except.error.inj hh))
  | .ok _, .error _ => .isFalse (fun hh => Except.noConfusion hh)
  | .error _, .ok _ => .isFalse (fun hh => Except.noConfusion hh)

/-- `d[key]` lookup on a Python dict modelled as an insertion-ordered
association list: the value at `key`, if present. -/
def dictGet? {α : Type} : List (String × α) → String → Option α
  | [], _ => none
  | (k, v) :: rest, key => if k = key then some v else dictGet? rest key

/-- `key in d` membership test on a Python dict. -/
def dictContains {α : Type} (d : List (String × α)) (key : String) : Bool :=
  (dictGet? d key).isSome

/-- `d[key] = v` on a Python dict: overwrite in place if the key is present,
otherwise append at the end (insertion order semantics). -/
def dictSet {α : Type} : List (String × α) → String → α → List (String × α)
  | [], key, v => [(key, v)]
  | (k, w) :: rest, key, v =>
    if k = key then (k, v) :: rest else (k, w) :: dictSet rest key v

/-- `d[key]` as an expression: raises `KeyError` when the key is absent. -/
def pyGet {α : Type} (d : List (String × α)) (key : String) : Except PyErr α :=
  match dictGet? d key with
  | some v => .ok v
  | none => .error (.keyError key)

/- Configuration constants of the script. -/

def INDEX_BASE_VALUE : ℚ := 1000

def MAX_DATAPOINTS : Nat := 300

def accent_color_green : String := "#44D400"

def accent_color_red : String := "#FF3B30"

def accent_color_neutral : String := "#AAAAAA"

/-- One matplotlib text artist of the sidebar: the numeric value currently
rendered (`none` for the initial empty text) and the color last set on it
(`none` for the default color). -/
structure TextArtist where
  shown : Option ℚ
  color : Option String
  deriving DecidableEq, Repr

/-- The triple of artists created per ticker at figure-setup time:
`ticker_label` (its fixed text), `price_text` and `pct_text`. -/
structure TickerArtists where
  labelText : String
  price : TextArtist
  pct : TextArtist
  deriving DecidableEq, Repr

/-- The global `data_store` dictionary. -/
structure DataStore where
  shares_outstanding : List (String × ℚ)
  base_market_cap : ℚ
  prev_close : List (String × ℚ)
  last_price : List (String × ℚ)
  text_artists : List (String × TickerArtists)
  deriving DecidableEq, Repr

/-- The axes state touched by `update`: the line data handed to
`line.set_data`, and the x/y limits set on `ax`. -/
structure Chart where
  lineData : List ℚ
  xlim : ℤ × ℤ
  ylim : ℚ × ℚ
  deriving DecidableEq, Repr

/-- The whole mutable state of the script: the (mutable) `TICKERS` list,
`data_store`, the two history lists and the axes. -/
structure ProgState where
  tickers : List String
  store : DataStore
  index_values : List ℚ
  timestamps : List String
  chart : Chart
  deriving DecidableEq, Repr

/-- The outcome of one `yf.download` call: the call either raises, or
returns a table whose last row of closes is the given per-ticker price map
(an empty map models `live_data.empty`). -/
inductive FetchResult where
  | raises
  | ok (prices : List (String × ℚ))
  deriving DecidableEq, Repr

/-- A fetch outcome as an `Except`: a raising call is an error. -/
def fetchToExcept : FetchResult → Except PyErr (List (String × ℚ))
  | .raises => .error .valueError
  | .ok prices => .ok prices

/-- Lines 94-102: try the 1-minute fetch; if it raises or returns empty,
fall back to the 1-day fetch (whose own raise propagates to the outer
handler). -/
def resolveFetch (intraday daily : FetchResult) : Except PyErr (List (String × ℚ)) :=
  match intraday with
  | .raises => fetchToExcept daily
  | .ok prices => if prices = [] then fetchToExcept daily else .ok prices

/-- Line 108: `sum(shares[t] * latest_prices[t] for t in TICKERS if t in
latest_prices)`, with `KeyError` on a missing `shares_outstanding` entry. -/
def sumCapE (shares prices : List (String × ℚ)) : List String → Except PyErr ℚ
  | [] => .ok 0
  | t :: rest =>
    if dictContains prices t then
      match pyGet shares t with
      | .error e => .error e
      | .ok sh =>
        match pyGet prices t with
        | .error e => .error e
        | .ok p =>
          match sumCapE shares prices rest with
          | .error e => .error e
          | .ok r => .ok (sh * p + r)
    else sumCapE shares prices rest

/-- The same market-cap sum written as a pure mathematical sum over the
tickers present in the fetched price map. -/
def capSum (shares prices : List (String × ℚ)) (tickers : List String) : ℚ :=
  ((tickers.filter (fun t => dictContains prices t)).map
    (fun t => (dictGet? shares t).getD 0 * (dictGet? prices t).getD 0)).sum

/-- Lines 111-114: append the new value and timestamp, then if the buffer
exceeds `MAX_DATAPOINTS` keep only the last `MAX_DATAPOINTS` entries of
both lists (`lst[-MAX_DATAPOINTS:]`). -/
def histAppend (iv : List ℚ) (ts : List String) (v : ℚ) (t : String) :
    List ℚ × List String :=
  let iv' := iv ++ [v]
  let ts' := ts ++ [t]
  if MAX_DATAPOINTS < iv'.length then
    (iv'.drop (iv'.length - MAX_DATAPOINTS), ts'.drop (ts'.length - MAX_DATAPOINTS))
  else (iv', ts')

/-- Python `min` over a nonempty list (the empty case is never reached). -/
def listMin : List ℚ → ℚ
  | [] => 0
  | x :: xs => xs.foldl min x

/-- Python `max` over a nonempty list (the empty case is never reached). -/
def listMax : List ℚ → ℚ
  | [] => 0
  | x :: xs => xs.foldl max x

/-- Lines 116-121: hand the history to the line, set
`xlim = (0, max(len - 1, 1))`, and only when more than one point is stored
set `ylim = (min - padding, max + padding)` with
`padding = (max - min) * 0.1 + 0.01`. -/
def chartUpdate (ch : Chart) (iv : List ℚ) : Chart :=
  let ch1 : Chart := { ch with lineData := iv, xlim := (0, max ((iv.length : ℤ) - 1) 1) }
  if 1 < iv.length then
    let mn := listMin iv
    let mx := listMax iv
    let padding := (mx - mn) * (1 / 10) + 1 / 100
    { ch1 with ylim := (mn - padding, mx + padding) }
  else ch1

/-- Lines 124-138, body of the sidebar loop for one ticker: skip it when it
is absent from the fetched prices; otherwise compute the daily percent
change against `prev_close`, pick the two colors, write text and colors
into the artists and store the price as the new `last_price`.  The only
raises are the dictionary lookups (`KeyError`); the line-127 division works
on float64 scalars, which never raise on a zero previous close (they
produce an infinity with a warning), so ℚ's total division stands in for
it and no theorem inspects the percent value at a zero previous close.
Every possible raise in an iteration happens before any of its
mutations. -/
def sidebarStep (prices : List (String × ℚ)) (store : DataStore) (t : String) :
    Except PyErr DataStore :=
  if dictContains prices t then
    match pyGet prices t with
    | .error e => .error e
    | .ok price =>
      match pyGet store.prev_close t with
      | .error e => .error e
      | .ok pc =>
        let pct := (price - pc) / pc * 100
        let dailyColor := if 0 ≤ pct then accent_color_green else accent_color_red
        match pyGet store.last_price t with
        | .error e => .error e
        | .ok lp =>
          let tickColor :=
            if lp < price then accent_color_green
            else if price < lp then accent_color_red
            else accent_color_neutral
          match pyGet store.text_artists t with
          | .error e => .error e
          | .ok arts =>
            .ok { store with
              text_artists := dictSet store.text_artists t
                { arts with
                  price := { shown := some price, color := some tickColor },
                  pct := { shown := some pct, color := some dailyColor } },
              last_price := dictSet store.last_price t price }
  else .ok store

/-- The sidebar loop over the remaining tickers; a raise mid-loop keeps the
mutations of the completed iterations and stops the loop. -/
def runSidebar (prices : List (String × ℚ)) :
    DataStore → List String → Except (DataStore × PyErr) DataStore
  | store, [] => .ok store
  | store, t :: rest =>
    match sidebarStep prices store t with
    | .ok store' => runSidebar prices store' rest
    | .error e => .error (store, e)

/-- The data store left behind by a run of the sidebar loop, whether it
completed or raised mid-loop. -/
def sidebarOut : Except (DataStore × PyErr) DataStore → DataStore
  | .ok store => store
  | .error (store, _) => store

/-- Lines 104-138 once a price table is in hand: skip the cycle on an empty
table, compute the market-cap sum and the index value, append to the
history, update the axes and run the sidebar loop.  The line-109 division
works on float64 scalars, so a zero base market cap would yield an infinite
index value rather than raise; ℚ's total division stands in for it (the
initializer's zero-base check keeps that case out of reach anyway).  An
error result carries the state as already mutated at the raise point. -/
def updateWithPrices (s : ProgState) (prices : List (String × ℚ)) (now : String) :
    Except (ProgState × PyErr) ProgState :=
  if prices = [] then .ok s
  else
    match sumCapE s.store.shares_outstanding prices s.tickers with
    | .error e => .error (s, e)
    | .ok c =>
      let v := INDEX_BASE_VALUE * (c / s.store.base_market_cap)
      let p := histAppend s.index_values s.timestamps v now
      let s1 : ProgState := { s with
        index_values := p.1, timestamps := p.2, chart := chartUpdate s.chart p.1 }
      match runSidebar prices s1.store s1.tickers with
      | .ok store2 => .ok { s1 with store := store2 }
      | .error (store2, e) => .error ({ s1 with store := store2 }, e)

/-- The body of `update` inside the outer `try`, lines 93-138. -/
def updateBody (s : ProgState) (frame : Nat) (intraday daily : FetchResult)
    (now : String) : Except (ProgState × PyErr) ProgState :=
  match resolveFetch intraday daily with
  | .error e => .error (s, e)
  | .ok prices => updateWithPrices s prices now

/-- Lines 90-141, `update(frame)`: any exception raised in the body is
caught and logged by the outer handler, keeping whatever state the body had
already mutated. -/
def update (s : ProgState) (frame : Nat) (intraday daily : FetchResult)
    (now : String) : ProgState :=
  match updateBody s frame intraday daily now with
  | .ok s' => s'
  | .error (s', _) => s'

/-- `stock.info` for one ticker: the three fields the script reads, each
possibly absent. -/
structure TickerInfo where
  sharesOutstanding : Option ℚ
  marketCap : Option ℚ
  previousClose : Option ℚ
  deriving DecidableEq, Repr

/-- The external data seen by `initialize_index`: whether the bulk download
is empty, its row count, the per-ticker `stock.info` record (a missing
entry models a raising `yf.Ticker`/`.info` access) and the per-ticker
second-to-last close `hist_data['Close'][ticker].iloc[-2]` (a missing entry
models a raising column access). -/
structure InitInput where
  histEmpty : Bool
  histLen : Nat
  info : List (String × TickerInfo)
  histClose : List (String × ℚ)
  deriving DecidableEq, Repr

/-- Line 42: `stock.info.get('marketCap', 0) / stock.info.get('previousClose', 1)`,
raising `ZeroDivisionError` when the present previous close is zero. -/
def estimateShares (info : TickerInfo) : Except PyErr ℚ :=
  let p := info.previousClose.getD 1
  if p = 0 then .error .zeroDiv else .ok (info.marketCap.getD 0 / p)

/-- Lines 39-42: take `sharesOutstanding` when it is truthy (present and
nonzero), otherwise estimate it from market cap and previous close. -/
def sharesOf (info : TickerInfo) : Except PyErr ℚ :=
  match info.sharesOutstanding with
  | some v => if v = 0 then estimateShares info else .ok v
  | none => estimateShares info

/-- Lines 37-51, the per-ticker `try` body: fetch the info record, derive
the shares figure, read the previous close, store all three per-ticker
entries and add `shares * prev_close` to the running base cap.  Every
possible raise happens before any of the mutations. -/
def processTicker (inp : InitInput) (store : DataStore) (total : ℚ) (t : String) :
    Except PyErr (DataStore × ℚ) :=
  match pyGet inp.info t with
  | .error e => .error e
  | .ok info =>
    match sharesOf info with
    | .error e => .error e
    | .ok shares =>
      match pyGet inp.histClose t with
      | .error e => .error e
      | .ok pc =>
        .ok ({ store with
               shares_outstanding := dictSet store.shares_outstanding t shares,
               prev_close := dictSet store.prev_close t pc,
               last_price := dictSet store.last_price t pc },
             total + shares * pc)

/-- Lines 36-55: CPython's `for ticker in TICKERS` protocol over the list
that the loop itself mutates.  The iterator keeps a cursor `i` into the
current list and advances it after every yielded element; on a per-ticker
failure `TICKERS.remove(ticker)` deletes the first occurrence of the
current element, so the element that slides into its slot is never
yielded.  `fuel` bounds the recursion; since the cursor advances at every
step and the list never grows, an initial fuel of the list length is never
exhausted before the cursor passes the end. -/
def initLoop (inp : InitInput) :
    Nat → List String → Nat → DataStore → ℚ → List String × DataStore × ℚ
  | 0, tickers, _, store, total => (tickers, store, total)
  | fuel + 1, tickers, i, store, total =>
    match tickers.get? i with
    | none => (tickers, store, total)
    | some t =>
      match processTicker inp store total t with
      | .ok (store', total') => initLoop inp fuel tickers (i + 1) store' total'
      | .error _ => initLoop inp fuel (tickers.erase t) (i + 1) store total

/-- Lines 25-60, `initialize_index()`: raise `ConnectionError` on an empty
or too-short bulk download, run the per-ticker loop, store the accumulated
base market cap and raise `ValueError` when it is zero. -/
def initialize_index (inp : InitInput) (s : ProgState) : Except PyErr ProgState :=
  if inp.histEmpty = true ∨ inp.histLen < 2 then .error .connError
  else
    match initLoop inp s.tickers.length s.tickers 0 s.store 0 with
    | (tickers', store', total) =>
      let store'' : DataStore := { store' with base_market_cap := total }
      if total = 0 then .error .valueError
      else .ok { s with tickers := tickers', store := store'' }

/-- Lines 81-87: the sidebar artists created at figure-setup time, one
triple per ticker of the basket as it stands then, the label text set to
`f"{ticker}:"` and the price and percent texts empty. -/
def setupArtists (tickers : List String) : List (String × TickerArtists) :=
  tickers.map (fun t =>
    (t, { labelText := t ++ ":",
          price := { shown := none, color := none },
          pct := { shown := none, color := none } }))

/-- The axes before any update has run. -/
def initChart : Chart := { lineData := [], xlim := (0, 1), ylim := (0, 1) }

/-- Module-level startup order: the empty `data_store` and history, then
the sidebar artists built from the full initial basket (lines 81-87), and
only afterwards the call to `initialize_index` (line 145). -/
def startup (inp : InitInput) (tickers0 : List String) : Except PyErr ProgState :=
  let s0 : ProgState := {
    tickers := tickers0,
    store := { shares_outstanding := [], base_market_cap := 0, prev_close := [],
               last_price := [], text_artists := setupArtists tickers0 },
    index_values := [], timestamps := [], chart := initChart }
  initialize_index inp s0

/- Concrete scenarios used to instantiate and to refute claims. -/

/-- The spec's worked example as initialization data: basket `[A, B]`,
shares `{A: 10, B: 5}`, previous closes `{A: 100, B: 200}`. -/
def exInputAB : InitInput :=
  { histEmpty := false, histLen := 5,
    info := [("A", ⟨some 10, none, none⟩), ("B", ⟨some 5, none, none⟩)],
    histClose := [("A", 100), ("B", 200)] }

/-- The state `startup exInputAB ["A", "B"]` reaches: base cap `2000`. -/
def exStateAB : ProgState :=
  { tickers := ["A", "B"],
    store := { shares_outstanding := [("A", 10), ("B", 5)],
               base_market_cap := 2000,
               prev_close := [("A", 100), ("B", 200)],
               last_price := [("A", 100), ("B", 200)],
               text_artists := setupArtists ["A", "B"] },
    index_values := [], timestamps := [], chart := initChart }

/-- Initialization data for the basket `["A", "B"]` in which every access
to `B` raises (no info record), so `B` is dropped during initialization. -/
def dropBInput : InitInput :=
  { histEmpty := false, histLen := 5,
    info := [("A", ⟨some 10, none, none⟩)],
    histClose := [("A", 100)] }

/-- The state `startup dropBInput ["A", "B"]` reaches: `B` is gone from the
basket but its sidebar artists, created before initialization, remain. -/
def dropBState : ProgState :=
  { tickers := ["A"],
    store := { shares_outstanding := [("A", 10)],
               base_market_cap := 1000,
               prev_close := [("A", 100)],
               last_price := [("A", 100)],
               text_artists := setupArtists ["A", "B"] },
    index_values := [], timestamps := [], chart := initChart }

/-- Initialization data for the basket `["A", "B", "C"]` in which every
access to `B` raises: `B` is dropped mid-iteration and the loop then skips
`C`. -/
def dropBSkipCInput : InitInput :=
  { histEmpty := false, histLen := 5,
    info := [("A", ⟨some 10, none, none⟩), ("C", ⟨some 5, none, none⟩)],
    histClose := [("A", 100), ("C", 200)] }

/-- The state `startup dropBSkipCInput ["A", "B", "C"]` reaches: `C` is
still in the basket but has no per-ticker entries at all. -/
def dropBSkipCState : ProgState :=
  { tickers := ["A", "C"],
    store := { shares_outstanding := [("A", 10)],
               base_market_cap := 1000,
               prev_close := [("A", 100)],
               last_price := [("A", 100)],
               text_artists := setupArtists ["A", "B", "C"] },
    index_values := [], timestamps := [], chart := initChart }

/-- `exStateAB` one successful cycle later, after the live tick
`A = 110, B = 200`: the single value `1050` in the history. -/
def exStateAB1 : ProgState :=
  { tickers := ["A", "B"],
    store := { shares_outstanding := [("A", 10), ("B", 5)],
               base_market_cap := 2000,
               prev_close := [("A", 100), ("B", 200)],
               last_price := [("A", 110), ("B", 200)],
               text_artists :=
                 [("A", { labelText := "A:",
                          price := { shown := some 110, color := some accent_color_green },
                          pct := { shown := some 10, color := some accent_color_green } }),
                  ("B", { labelText := "B:",
                          price := { shown := some 200, color := some accent_color_neutral },
                          pct := { shown := some 0, color := some accent_color_green } })] },
    index_values := [1050], timestamps := ["10:00:00"],
    chart := { lineData := [1050], xlim := (0, 1), ylim := (0, 1) } }

/-- The state the body of a successful cycle produces from `s` when the
resolved price table is `prices` and the market-cap sum is `c`: history
appended and truncated, axes updated, and the sidebar loop run (keeping its
partial mutations if it raised). -/
def successState (s : ProgState) (prices : List (String × ℚ)) (c : ℚ) (now : String) :
    ProgState :=
  { s with
    index_values := (histAppend s.index_values s.timestamps
      (INDEX_BASE_VALUE * (c / s.store.base_market_cap)) now).1,
    timestamps := (histAppend s.index_values s.timestamps
      (INDEX_BASE_VALUE * (c / s.store.base_market_cap)) now).2,
    chart := chartUpdate s.chart (histAppend s.index_values s.timestamps
      (INDEX_BASE_VALUE * (c / s.store.base_market_cap)) now).1,
    store := sidebarOut (runSidebar prices s.store s.tickers) }

/-- The per-ticker entries of lines 46-48 travel together: whenever a
ticker has a shares entry it also has `prev_close` and `last_price`
entries.  The initializer only ever writes the three in one step. -/
def storeTriples (store : DataStore) : Prop :=
  ∀ t : String, (dictGet? store.shares_outstanding t).isSome = true →
    ((dictGet? store.prev_close t).isSome = true ∧
     (dictGet? store.last_price t).isSome = true)

/-- Well-formedness of a program state, as startup leaves it: every basket
ticker with a shares entry also has `prev_close`, `last_price` and sidebar
artists, so the sidebar loop can never raise once the cap sum has gone
through. -/
def sidebarSafe (s : ProgState) : Prop :=
  ∀ t ∈ s.tickers, (dictGet? s.store.shares_outstanding t).isSome = true →
    ((dictGet? s.store.prev_close t).isSome = true ∧
     (dictGet? s.store.last_price t).isSome = true ∧
     (dictGet? s.store.text_artists t).isSome = true)

instance (s : ProgState) : Decidable (sidebarSafe s) := by
  unfold sidebarSafe
  infer_instance

/-! Helper lemmas about the dictionary operations. -/

theorem dictGet?_dictSet_self {α : Type} (d : List (String × α)) (k : String) (v : α) :
    dictGet? (dictSet d k v) k = some v := by
  induction d with
  | nil => simp [dictGet?, dictSet]
  | cons hd tl ih =>
    obtain ⟨k0, w⟩ := hd
    by_cases h0 : k0 = k
    · subst h0; simp [dictGet?, dictSet]
    · simp only [dictSet, if_neg h0, dictGet?]
      exact ih

theorem dictGet?_dictSet_ne {α : Type} (d : List (String × α)) (k k' : String) (v : α)
    (h : k' ≠ k) : dictGet? (dictSet d k v) k' = dictGet? d k' := by
  induction d with
  | nil =>
    simp only [dictSet, dictGet?]
    rw [if_neg (fun hh => h hh.symm)]
  | cons hd tl ih =>
    obtain ⟨k0, w⟩ := hd
    simp only [dictSet]
    by_cases h0 : k0 = k
    · rw [if_pos h0]
      subst h0
      simp only [dictGet?]
      rw [if_neg (fun hh => h hh.symm), if_neg (fun hh => h hh.symm)]
    · rw [if_neg h0]
      simp only [dictGet?]
      by_cases h1 : k0 = k'
      · rw [if_pos h1, if_pos h1]
      · rw [if_neg h1, if_neg h1, ih]

theorem pyGet_dictSet_ne {α : Type} (d : List (String × α)) (k k' : String) (v : α)
    (h : k' ≠ k) : pyGet (dictSet d k v) k' = pyGet d k' := by
  unfold pyGet
  rw [dictGet?_dictSet_ne d k k' v h]

theorem dictContains_ne_of_not_contains {α : Type} (d : List (String × α)) (u t : String)
    (hu : dictContains d u = true) (ht : dictContains d t = false) : u ≠ t := by
  intro h; rw [h] at hu; rw [hu] at ht; exact Bool.noConfusion ht

theorem ne_nil_of_contains {α : Type} (d : List (String × α)) (t : String)
    (h : dictContains d t = true) : d ≠ [] := by
  intro hd; rw [hd] at h; simp [dictContains, dictGet?] at h

/-! Helper lemmas about the market-cap sum. -/

theorem sumCapE_eq_capSum (shares prices : List (String × ℚ)) (tickers : List String)
    (h : ∀ u ∈ tickers, dictContains prices u = true →
      (dictGet? shares u).isSome = true) :
    sumCapE shares prices tickers = .ok (capSum shares prices tickers) := by
  induction tickers with
  | nil => simp [sumCapE, capSum]
  | cons t rest ih =>
    have ihh := ih (fun u hu hpu => h u (List.mem_cons_of_mem t hu) hpu)
    by_cases hp : dictContains prices t
    · have hs : (dictGet? shares t).isSome := h t (List.mem_cons_self t rest) hp
      obtain ⟨sh, hsh⟩ := Option.isSome_iff_exists.mp hs
      have hpp : (dictGet? prices t).isSome := by
        simpa [dictContains] using hp
      obtain ⟨p, hp2⟩ := Option.isSome_iff_exists.mp hpp
      simp [sumCapE, hp, pyGet, hsh, hp2, ihh, capSum]
    · simp [sumCapE, hp, ihh, capSum]

theorem sumCapE_error_of_missing (shares prices : List (String × ℚ))
    (tickers : List String) (t : String) (ht : t ∈ tickers)
    (hp : dictContains prices t = true) (hs : dictGet? shares t = none) :
    ∃ e, sumCapE shares prices tickers = .error e := by
  induction tickers with
  | nil => exact absurd ht (List.not_mem_nil t)
  | cons u rest ih =>
    by_cases hu : dictContains prices u
    · rcases List.mem_cons.mp ht with rfl | hmem
      · exact ⟨.keyError t, by simp [sumCapE, hu, pyGet, hs]⟩
      · cases hug : pyGet shares u with
        | error e => exact ⟨e, by simp [sumCapE, hu, hug]⟩
        | ok sh =>
          cases hupg : pyGet prices u with
          | error e => exact ⟨e, by simp [sumCapE, hu, hug, hupg]⟩
          | ok p =>
            obtain ⟨e, he⟩ := ih hmem
            exact ⟨e, by simp [sumCapE, hu, hug, hupg, he]⟩
    · rcases List.mem_cons.mp ht with rfl | hmem
      · exact absurd hp hu
      · obtain ⟨e, he⟩ := ih hmem
        exact ⟨e, by simp [sumCapE, hu, he]⟩

theorem sumCapE_dictSet_absent (shares prices : List (String × ℚ))
    (tickers : List String) (t : String) (v : ℚ)
    (ht : dictContains prices t = false) :
    sumCapE (dictSet shares t v) prices tickers = sumCapE shares prices tickers := by
  induction tickers with
  | nil => rfl
  | cons u rest ih =>
    by_cases hu : dictContains prices u
    · have hne : u ≠ t := dictContains_ne_of_not_contains prices u t hu ht
      simp only [sumCapE, hu, if_pos]
      rw [pyGet_dictSet_ne shares t u v hne, ih]
    · simp only [sumCapE, hu]
      rw [if_neg (by simp [hu]), if_neg (by simp [hu]), ih]

theorem sumCapE_dictSet_not_mem (shares prices : List (String × ℚ))
    (tickers : List String) (t : String) (v : ℚ) (ht : t ∉ tickers) :
    sumCapE (dictSet shares t v) prices tickers = sumCapE shares prices tickers := by
  induction tickers with
  | nil => rfl
  | cons u rest ih =>
    have hne : u ≠ t := fun h => ht (h ▸ List.mem_cons_self u rest)
    have ihh := ih (fun h => ht (List.mem_cons_of_mem u h))
    by_cases hu : dictContains prices u
    · simp only [sumCapE, hu, if_pos]
      rw [pyGet_dictSet_ne shares t u v hne, ihh]
    · simp only [sumCapE, hu]
      rw [if_neg (by simp [hu]), if_neg (by simp [hu]), ihh]

/-! Helper lemmas about the history buffer. -/

theorem histAppend_fst_length (iv : List ℚ) (ts : List String) (v : ℚ) (t : String) :
    (histAppend iv ts v t).1.length = min (iv.length + 1) MAX_DATAPOINTS := by
  simp only [histAppend, MAX_DATAPOINTS]
  split
  · next h =>
    simp only [List.length_drop, List.length_append, List.length_singleton] at h ⊢
    omega
  · next h =>
    simp only [List.length_append, List.length_singleton] at h ⊢
    omega

theorem histAppend_snd_length (iv : List ℚ) (ts : List String) (v : ℚ) (t : String)
    (h : iv.length = ts.length) :
    (histAppend iv ts v t).2.length = (histAppend iv ts v t).1.length := by
  simp only [histAppend, MAX_DATAPOINTS]
  split
  · next h0 =>
    simp only [List.length_drop, List.length_append, List.length_singleton]
    omega
  · next h0 =>
    simp only [List.length_append, List.length_singleton]
    omega

theorem histAppend_fst_suffix (iv : List ℚ) (ts : List String) (v : ℚ) (t : String) :
    (histAppend iv ts v t).1 <:+ iv ++ [v] := by
  by_cases h : MAX_DATAPOINTS < (iv ++ [v]).length
  · simp only [histAppend, if_pos h]
    exact List.drop_suffix _ _
  · simp only [histAppend, if_neg h]
    exact List.suffix_refl _

theorem histAppend_snd_suffix (iv : List ℚ) (ts : List String) (v : ℚ) (t : String) :
    (histAppend iv ts v t).2 <:+ ts ++ [t] := by
  by_cases h : MAX_DATAPOINTS < (iv ++ [v]).length
  · simp only [histAppend, if_pos h]
    exact List.drop_suffix _ _
  · simp only [histAppend, if_neg h]
    exact List.suffix_refl _

/-! Helper lemma about the axes update. -/

theorem chartUpdate_spec (ch : Chart) (iv : List ℚ) :
    (chartUpdate ch iv).lineData = iv ∧
    (chartUpdate ch iv).xlim = (0, max ((iv.length : ℤ) - 1) 1) ∧
    (1 < iv.length →
      (chartUpdate ch iv).ylim =
        (listMin iv - ((listMax iv - listMin iv) * (1 / 10) + 1 / 100),
         listMax iv + ((listMax iv - listMin iv) * (1 / 10) + 1 / 100))) ∧
    (¬ 1 < iv.length → (chartUpdate ch iv).ylim = ch.ylim) := by
  by_cases h : 1 < iv.length <;> simp [chartUpdate, h]

/-! Helper lemmas about the sidebar loop. -/

theorem sidebarStep_core (prices : List (String × ℚ)) (store : DataStore) (t : String)
    (store' : DataStore) (h : sidebarStep prices store t = .ok store') :
    store'.shares_outstanding = store.shares_outstanding ∧
    store'.base_market_cap = store.base_market_cap ∧
    store'.prev_close = store.prev_close := by
  unfold sidebarStep at h
  repeat' split at h
  all_goals cases h
  all_goals exact ⟨rfl, rfl, rfl⟩

theorem sidebarStep_lookup_ne (prices : List (String × ℚ)) (store : DataStore)
    (t t' : String) (hne : t ≠ t') (store' : DataStore)
    (h : sidebarStep prices store t = .ok store') :
    dictGet? store'.last_price t' = dictGet? store.last_price t' ∧
    dictGet? store'.text_artists t' = dictGet? store.text_artists t' := by
  unfold sidebarStep at h
  repeat' split at h
  all_goals cases h
  all_goals
    first
    | exact ⟨rfl, rfl⟩
    | exact ⟨dictGet?_dictSet_ne _ t t' _ (fun hh => hne hh.symm),
             dictGet?_dictSet_ne _ t t' _ (fun hh => hne hh.symm)⟩

theorem sidebarStep_not_present (prices : List (String × ℚ)) (store : DataStore)
    (t : String) (h : dictContains prices t = false) :
    sidebarStep prices store t = .ok store := by
  simp [sidebarStep, h]

theorem runSidebar_core (prices : List (String × ℚ)) (l : List String) :
    ∀ store : DataStore,
      (sidebarOut (runSidebar prices store l)).shares_outstanding
        = store.shares_outstanding ∧
      (sidebarOut (runSidebar prices store l)).base_market_cap
        = store.base_market_cap ∧
      (sidebarOut (runSidebar prices store l)).prev_close = store.prev_close := by
  induction l with
  | nil => intro store; exact ⟨rfl, rfl, rfl⟩
  | cons t rest ih =>
    intro store
    cases h : sidebarStep prices store t with
    | error e => simp only [runSidebar, h]; exact ⟨rfl, rfl, rfl⟩
    | ok store' =>
      obtain ⟨a, b, c⟩ := sidebarStep_core prices store t store' h
      obtain ⟨a2, b2, c2⟩ := ih store'
      simp only [runSidebar, h]
      exact ⟨a2.trans a, b2.trans b, c2.trans c⟩

theorem runSidebar_lookup (prices : List (String × ℚ)) (t : String) (l : List String)
    (hl : ∀ u ∈ l, dictContains prices u = true → u ≠ t) :
    ∀ store : DataStore,
      dictGet? (sidebarOut (runSidebar prices store l)).last_price t
        = dictGet? store.last_price t ∧
      dictGet? (sidebarOut (runSidebar prices store l)).text_artists t
        = dictGet? store.text_artists t := by
  induction l with
  | nil => intro store; exact ⟨rfl, rfl⟩
  | cons u rest ih =>
    intro store
    cases h : sidebarStep prices store u with
    | error e => simp only [runSidebar, h]; exact ⟨rfl, rfl⟩
    | ok store' =>
      have hstep : dictGet? store'.last_price t = dictGet? store.last_price t ∧
          dictGet? store'.text_artists t = dictGet? store.text_artists t := by
        by_cases hp : dictContains prices u
        · exact sidebarStep_lookup_ne prices store u t
            (hl u (List.mem_cons_self u rest) hp) store' h
        · rw [sidebarStep_not_present prices store u
            (Bool.not_eq_true _ ▸ hp)] at h
          cases h; exact ⟨rfl, rfl⟩
      have ihh := ih (fun w hw hpw => hl w (List.mem_cons_of_mem u hw) hpw) store'
      simp only [runSidebar, h]
      exact ⟨ihh.1.trans hstep.1, ihh.2.trans hstep.2⟩

/-! Helper lemmas about the shape of one update cycle. -/

theorem update_of_resolve_error (s : ProgState) (frame : Nat)
    (intraday daily : FetchResult) (now : String) (e : PyErr)
    (h : resolveFetch intraday daily = .error e) :
    update s frame intraday daily now = s := by
  unfold update updateBody
  rw [h]

theorem update_of_empty (s : ProgState) (frame : Nat)
    (intraday daily : FetchResult) (now : String)
    (h : resolveFetch intraday daily = .ok []) :
    update s frame intraday daily now = s := by
  unfold update updateBody
  rw [h]
  simp [updateWithPrices]

theorem update_of_sum_error (s : ProgState) (frame : Nat)
    (intraday daily : FetchResult) (now : String) (prices : List (String × ℚ))
    (e : PyErr) (hres : resolveFetch intraday daily = .ok prices)
    (hne : prices ≠ [])
    (hsum : sumCapE s.store.shares_outstanding prices s.tickers = .error e) :
    update s frame intraday daily now = s := by
  unfold update updateBody
  rw [hres]
  simp [updateWithPrices, hne, hsum]

theorem update_success (s : ProgState) (frame : Nat)
    (intraday daily : FetchResult) (now : String) (prices : List (String × ℚ))
    (c : ℚ) (hres : resolveFetch intraday daily = .ok prices) (hne : prices ≠ [])
    (hsum : sumCapE s.store.shares_outstanding prices s.tickers = .ok c) :
    update s frame intraday daily now = successState s prices c now := by
  unfold update updateBody updateWithPrices
  simp only [hres, hsum, if_neg hne]
  cases hrs : runSidebar prices s.store s.tickers with
  | ok st => simp [successState, hrs, sidebarOut]
  | error p =>
    obtain ⟨st, e⟩ := p
    simp [successState, hrs, sidebarOut]

theorem update_cases (s : ProgState) (frame : Nat)
    (intraday daily : FetchResult) (now : String) :
    update s frame intraday daily now = s ∨
    ∃ prices c, resolveFetch intraday daily = .ok prices ∧ prices ≠ [] ∧
      sumCapE s.store.shares_outstanding prices s.tickers = .ok c ∧
      update s frame intraday daily now = successState s prices c now := by
  cases hres : resolveFetch intraday daily with
  | error e => exact .inl (update_of_resolve_error s frame intraday daily now e hres)
  | ok prices =>
    by_cases hne : prices = []
    · subst hne
      exact .inl (update_of_empty s frame intraday daily now hres)
    · cases hsum : sumCapE s.store.shares_outstanding prices s.tickers with
      | error e =>
        exact .inl (update_of_sum_error s frame intraday daily now prices e hres hne hsum)
      | ok c =>
        exact .inr ⟨prices, c, rfl, hne, hsum,
          update_success s frame intraday daily now prices c hres hne hsum⟩

theorem update_tickers (s : ProgState) (frame : Nat)
    (intraday daily : FetchResult) (now : String) :
    (update s frame intraday daily now).tickers = s.tickers := by
  rcases update_cases s frame intraday daily now with h | ⟨prices, c, _, _, _, h⟩
  · rw [h]
  · rw [h]; rfl

theorem update_shares (s : ProgState) (frame : Nat)
    (intraday daily : FetchResult) (now : String) :
    (update s frame intraday daily now).store.shares_outstanding
      = s.store.shares_outstanding := by
  rcases update_cases s frame intraday daily now with h | ⟨prices, c, _, _, _, h⟩
  · rw [h]
  · rw [h]
    exact (runSidebar_core prices s.tickers s.store).1

theorem update_prev_close (s : ProgState) (frame : Nat)
    (intraday daily : FetchResult) (now : String) :
    (update s frame intraday daily now).store.prev_close = s.store.prev_close := by
  rcases update_cases s frame intraday daily now with h | ⟨prices, c, _, _, _, h⟩
  · rw [h]
  · rw [h]
    exact (runSidebar_core prices s.tickers s.store).2.2

/-! Evaluations of the concrete scenarios. -/

theorem startup_exAB_eval : startup exInputAB ["A", "B"] = .ok exStateAB := by
  simp [startup, initialize_index, initLoop, processTicker, pyGet, dictGet?,
    sharesOf, estimateShares, dictSet, setupArtists, exInputAB, exStateAB, initChart]
  all_goals norm_num

theorem startup_dropB_eval : startup dropBInput ["A", "B"] = .ok dropBState := by
  simp [startup, initialize_index, initLoop, processTicker, pyGet, dictGet?,
    sharesOf, estimateShares, dictSet, setupArtists, dropBInput, dropBState,
    initChart]
  all_goals norm_num

theorem startup_dropBSkipC_eval :
    startup dropBSkipCInput ["A", "B", "C"] = .ok dropBSkipCState := by
  simp [startup, initialize_index, initLoop, processTicker, pyGet, dictGet?,
    sharesOf, estimateShares, dictSet, setupArtists, dropBSkipCInput,
    dropBSkipCState, initChart]
  all_goals norm_num

theorem update_exAB_eval :
    update exStateAB 0 (.ok [("A", 110), ("B", 200)]) .raises "10:00:00"
      = exStateAB1 := by
  simp [update, updateBody, resolveFetch, updateWithPrices, sumCapE, pyGet,
    dictGet?, dictContains, histAppend, chartUpdate, listMin, listMax, runSidebar,
    sidebarStep, sidebarOut, dictSet, INDEX_BASE_VALUE, MAX_DATAPOINTS,
    exStateAB, exStateAB1, setupArtists, initChart]
  all_goals norm_num

theorem updateBody_dropC_eval :
    updateBody dropBSkipCState 0 (.ok [("C", 200)]) .raises "10:00:00"
      = .error (dropBSkipCState, .keyError "C") := by
  simp [updateBody, resolveFetch, updateWithPrices, sumCapE, pyGet,
    dictGet?, dictContains, dropBSkipCState, setupArtists, initChart]

/-! Helper lemmas for the safety of the sidebar loop on well-formed
states. -/

theorem dictGet?_dictSet_isSome {α : Type} (d : List (String × α)) (k u : String)
    (v : α) (h : (dictGet? d u).isSome = true) :
    (dictGet? (dictSet d k v) u).isSome = true := by
  by_cases hk : u = k
  · subst hk
    rw [dictGet?_dictSet_self]
    rfl
  · rw [dictGet?_dictSet_ne d k u v hk]
    exact h

theorem pyGet_ok_of_isSome {α : Type} (d : List (String × α)) (k : String)
    (h : (dictGet? d k).isSome = true) : ∃ v, pyGet d k = .ok v := by
  obtain ⟨v, hv⟩ := Option.isSome_iff_exists.mp h
  exact ⟨v, by simp [pyGet, hv]⟩

theorem sumCapE_ok_shares_present (shares prices : List (String × ℚ))
    (tickers : List String) (c : ℚ)
    (h : sumCapE shares prices tickers = .ok c) :
    ∀ u ∈ tickers, dictContains prices u = true →
      (dictGet? shares u).isSome = true := by
  induction tickers generalizing c with
  | nil => intro u hu; exact absurd hu (List.not_mem_nil u)
  | cons t rest ih =>
    intro u hu hpu
    by_cases hp : dictContains prices t
    · rw [show sumCapE shares prices (t :: rest)
          = (if dictContains prices t then
              match pyGet shares t with
              | .error e => .error e
              | .ok sh =>
                match pyGet prices t with
                | .error e => .error e
                | .ok p =>
                  match sumCapE shares prices rest with
                  | .error e => .error e
                  | .ok r => .ok (sh * p + r)
            else sumCapE shares prices rest) from rfl, if_pos hp] at h
      cases hsh : pyGet shares t with
      | error e => rw [hsh] at h; exact absurd h (by simp)
      | ok sh =>
        rw [hsh] at h
        cases hpp : pyGet prices t with
        | error e => rw [hpp] at h; exact absurd h (by simp)
        | ok p =>
          rw [hpp] at h
          cases hrec : sumCapE shares prices rest with
          | error e => rw [hrec] at h; exact absurd h (by simp)
          | ok r =>
            rcases List.mem_cons.mp hu with rfl | hmem
            · unfold pyGet at hsh
              cases hdg : dictGet? shares u with
              | none => rw [hdg] at hsh; exact absurd hsh (by simp)
              | some w => rfl
            · exact ih r hrec u hmem hpu
    · rw [show sumCapE shares prices (t :: rest)
          = (if dictContains prices t then
              match pyGet shares t with
              | .error e => .error e
              | .ok sh =>
                match pyGet prices t with
                | .error e => .error e
                | .ok p =>
                  match sumCapE shares prices rest with
                  | .error e => .error e
                  | .ok r => .ok (sh * p + r)
            else sumCapE shares prices rest) from rfl, if_neg hp] at h
      rcases List.mem_cons.mp hu with rfl | hmem
      · exact absurd hpu hp
      · exact ih c h u hmem hpu

theorem sidebarStep_presence (prices : List (String × ℚ)) (store : DataStore)
    (t : String) (store' : DataStore)
    (h : sidebarStep prices store t = .ok store') (u : String) :
    ((dictGet? store.last_price u).isSome = true →
      (dictGet? store'.last_price u).isSome = true) ∧
    ((dictGet? store.text_artists u).isSome = true →
      (dictGet? store'.text_artists u).isSome = true) := by
  unfold sidebarStep at h
  repeat' split at h
  all_goals cases h
  all_goals
    first
    | exact ⟨fun hh => hh, fun hh => hh⟩
    | exact ⟨fun hh => dictGet?_dictSet_isSome _ _ _ _ hh,
             fun hh => dictGet?_dictSet_isSome _ _ _ _ hh⟩

theorem sidebarStep_ok_of_present (prices : List (String × ℚ)) (store : DataStore)
    (t : String)
    (h1 : (dictGet? store.prev_close t).isSome = true)
    (h2 : (dictGet? store.last_price t).isSome = true)
    (h3 : (dictGet? store.text_artists t).isSome = true) :
    ∃ store', sidebarStep prices store t = .ok store' := by
  by_cases hp : dictContains prices t
  · obtain ⟨price, hprice⟩ : ∃ v, pyGet prices t = .ok v :=
      pyGet_ok_of_isSome prices t (by simpa [dictContains] using hp)
    obtain ⟨pc, hpc⟩ := pyGet_ok_of_isSome store.prev_close t h1
    obtain ⟨lp, hlp⟩ := pyGet_ok_of_isSome store.last_price t h2
    obtain ⟨arts, harts⟩ := pyGet_ok_of_isSome store.text_artists t h3
    cases hstep : sidebarStep prices store t with
    | ok st => exact ⟨st, rfl⟩
    | error e =>
      simp only [sidebarStep, if_pos hp, hprice, hpc, hlp, harts] at hstep
      exact Except.noConfusion hstep
  · exact ⟨store, sidebarStep_not_present prices store t
      (Bool.not_eq_true _ ▸ hp)⟩

theorem runSidebar_presence (prices : List (String × ℚ)) (u : String)
    (l : List String) :
    ∀ store : DataStore,
      ((dictGet? store.last_price u).isSome = true →
        (dictGet? (sidebarOut (runSidebar prices store l)).last_price u).isSome
          = true) ∧
      ((dictGet? store.text_artists u).isSome = true →
        (dictGet? (sidebarOut (runSidebar prices store l)).text_artists u).isSome
          = true) := by
  induction l with
  | nil => intro store; exact ⟨fun h => h, fun h => h⟩
  | cons t rest ih =>
    intro store
    cases h : sidebarStep prices store t with
    | error e =>
      simp only [runSidebar, h]
      exact ⟨fun hh => hh, fun hh => hh⟩
    | ok store' =>
      have hstep := sidebarStep_presence prices store t store' h u
      have ihh := ih store'
      simp only [runSidebar, h]
      exact ⟨fun hh => ihh.1 (hstep.1 hh), fun hh => ihh.2 (hstep.2 hh)⟩

theorem runSidebar_ok_of_present (prices : List (String × ℚ)) (l : List String) :
    ∀ store : DataStore,
      (∀ u ∈ l, dictContains prices u = true →
        ((dictGet? store.prev_close u).isSome = true ∧
         (dictGet? store.last_price u).isSome = true ∧
         (dictGet? store.text_artists u).isSome = true)) →
      ∃ store', runSidebar prices store l = .ok store' := by
  induction l with
  | nil => intro store _; exact ⟨store, rfl⟩
  | cons t rest ih =>
    intro store hl
    by_cases hp : dictContains prices t
    · obtain ⟨h1, h2, h3⟩ := hl t (List.mem_cons_self t rest) hp
      obtain ⟨store1, hstep⟩ := sidebarStep_ok_of_present prices store t h1 h2 h3
      have hrest : ∀ u ∈ rest, dictContains prices u = true →
          ((dictGet? store1.prev_close u).isSome = true ∧
           (dictGet? store1.last_price u).isSome = true ∧
           (dictGet? store1.text_artists u).isSome = true) := by
        intro u hu hpu
        obtain ⟨g1, g2, g3⟩ := hl u (List.mem_cons_of_mem t hu) hpu
        have hcore := sidebarStep_core prices store t store1 hstep
        have hpres := sidebarStep_presence prices store t store1 hstep u
        exact ⟨hcore.2.2 ▸ g1, hpres.1 g2, hpres.2 g3⟩
      obtain ⟨store2, hrun⟩ := ih store1 hrest
      refine ⟨store2, ?_⟩
      simp only [runSidebar, hstep, hrun]
    · have hstep := sidebarStep_not_present prices store t (Bool.not_eq_true _ ▸ hp)
      obtain ⟨store2, hrun⟩ := ih store
        (fun u hu hpu => hl u (List.mem_cons_of_mem t hu) hpu)
      refine ⟨store2, ?_⟩
      simp only [runSidebar, hstep, hrun]

theorem updateBody_error_state_unchanged (s : ProgState) (frame : Nat)
    (intraday daily : FetchResult) (now : String) (s' : ProgState) (e : PyErr)
    (hsafe : sidebarSafe s)
    (h : updateBody s frame intraday daily now = .error (s', e)) : s' = s := by
  unfold updateBody at h
  cases hres : resolveFetch intraday daily with
  | error e0 =>
    simp only [hres] at h
    injection h with h2
    exact (congrArg Prod.fst h2).symm
  | ok prices =>
    simp only [hres] at h
    unfold updateWithPrices at h
    by_cases hne : prices = []
    · rw [if_pos hne] at h
      exact absurd h (by simp)
    · rw [if_neg hne] at h
      cases hsum : sumCapE s.store.shares_outstanding prices s.tickers with
      | error e1 =>
        simp only [hsum] at h
        injection h with h2
        exact (congrArg Prod.fst h2).symm
      | ok c =>
        simp only [hsum] at h
        obtain ⟨store2, hrun⟩ := runSidebar_ok_of_present prices s.tickers s.store
          (fun u hu hpu =>
            hsafe u hu (sumCapE_ok_shares_present s.store.shares_outstanding
              prices s.tickers c hsum u hu hpu))
        simp only [hrun] at h
        exact absurd h (by simp)

theorem setupArtists_isSome (l : List String) (t : String) (h : t ∈ l) :
    (dictGet? (setupArtists l) t).isSome = true := by
  induction l with
  | nil => exact absurd h (List.not_mem_nil t)
  | cons a rest ih =>
    simp only [setupArtists, List.map, dictGet?]
    by_cases ha : a = t
    · rw [if_pos ha]; rfl
    · rw [if_neg ha]
      rcases List.mem_cons.mp h with rfl | hmem
      · exact absurd rfl ha
      · simpa [setupArtists] using ih hmem

theorem processTicker_triples (inp : InitInput) (store : DataStore) (total : ℚ)
    (t : String) (store' : DataStore) (total' : ℚ)
    (h : processTicker inp store total t = .ok (store', total'))
    (hP : storeTriples store) :
    storeTriples store' ∧ store'.text_artists = store.text_artists := by
  unfold processTicker at h
  repeat' split at h
  all_goals cases h
  constructor
  · intro u hu
    by_cases hut : u = t
    · subst hut
      constructor
      · rw [dictGet?_dictSet_self]; rfl
      · rw [dictGet?_dictSet_self]; rfl
    · rw [dictGet?_dictSet_ne _ _ _ _ hut] at hu
      obtain ⟨g1, g2⟩ := hP u hu
      exact ⟨by rw [dictGet?_dictSet_ne _ _ _ _ hut]; exact g1,
        by rw [dictGet?_dictSet_ne _ _ _ _ hut]; exact g2⟩
  · rfl

theorem initLoop_triples (inp : InitInput) :
    ∀ (fuel : Nat) (tickers : List String) (i : Nat) (store : DataStore)
      (total : ℚ), storeTriples store →
      (storeTriples (initLoop inp fuel tickers i store total).2.1 ∧
       (initLoop inp fuel tickers i store total).2.1.text_artists
         = store.text_artists ∧
       (initLoop inp fuel tickers i store total).1 ⊆ tickers) := by
  intro fuel
  induction fuel with
  | zero => intro tickers i store total hP; exact ⟨hP, rfl, fun _ h => h⟩
  | succ n ih =>
    intro tickers i store total hP
    cases hget : tickers.get? i with
    | none =>
      simp only [initLoop, hget]
      refine ⟨hP, ?_, ?_⟩
      · simp
      · simp
    | some t =>
      cases hproc : processTicker inp store total t with
      | ok p =>
        obtain ⟨store', total'⟩ := p
        obtain ⟨hP', hta⟩ := processTicker_triples inp store total t store' total'
          hproc hP
        obtain ⟨r1, r2, r3⟩ := ih tickers (i + 1) store' total' hP'
        simp only [initLoop, hget, hproc]
        exact ⟨r1, r2.trans hta, r3⟩
      | error e =>
        obtain ⟨r1, r2, r3⟩ := ih (tickers.erase t) (i + 1) store total hP
        simp only [initLoop, hget, hproc]
        exact ⟨r1, r2, fun _ hx => List.erase_subset _ _ (r3 hx)⟩

theorem startup_sidebarSafe (inp : InitInput) (tickers0 : List String)
    (s0 : ProgState) (h : startup inp tickers0 = .ok s0) : sidebarSafe s0 := by
  unfold startup initialize_index at h
  by_cases h1 : inp.histEmpty = true ∨ inp.histLen < 2
  · rw [if_pos h1] at h
    exact absurd h (by simp)
  · rw [if_neg h1] at h
    generalize hloop : initLoop inp tickers0.length tickers0 0
      { shares_outstanding := [], base_market_cap := 0, prev_close := [],
        last_price := [], text_artists := setupArtists tickers0 } 0 = res at h
    obtain ⟨tks, st, tot⟩ := res
    by_cases h2 : tot = 0
    · simp [h2] at h
    · simp only [if_neg h2] at h
      injection h with h3
      subst h3
      have hempty : storeTriples
          { shares_outstanding := [], base_market_cap := 0, prev_close := [],
            last_price := [], text_artists := setupArtists tickers0 } := by
        intro u hu
        simp [dictGet?] at hu
      have hinv := initLoop_triples inp tickers0.length tickers0 0
        { shares_outstanding := [], base_market_cap := 0, prev_close := [],
          last_price := [], text_artists := setupArtists tickers0 } 0 hempty
      simp only [hloop] at hinv
      obtain ⟨hP, hta, hsub⟩ := hinv
      intro t ht hshares
      obtain ⟨g1, g2⟩ := hP t hshares
      have hartists : (dictGet? st.text_artists t).isSome = true := by
        rw [hta]
        exact setupArtists_isSome tickers0 t (hsub ht)
      exact ⟨g1, g2, hartists⟩

theorem update_sidebarSafe (s : ProgState) (frame : Nat)
    (intraday daily : FetchResult) (now : String) (hsafe : sidebarSafe s) :
    sidebarSafe (update s frame intraday daily now) := by
  rcases update_cases s frame intraday daily now with h | ⟨prices, c, _, _, _, h⟩
  · rw [h]; exact hsafe
  · rw [h]
    intro t ht hshares
    simp only [successState] at ht hshares ⊢
    rw [(runSidebar_core prices s.tickers s.store).1] at hshares
    obtain ⟨g1, g2, g3⟩ := hsafe t ht hshares
    refine ⟨?_, ?_, ?_⟩
    · rw [(runSidebar_core prices s.tickers s.store).2.2]
      exact g1
    · exact (runSidebar_presence prices t s.tickers s.store).1 g2
    · exact (runSidebar_presence prices t s.tickers s.store).2 g3

/-! The claims. -/

/-- Claim C1: in every update cycle whose fetched price table is valid, the
appended index value equals `INDEX_BASE_VALUE * current_total_cap /
base_market_cap`, where the total cap sums `shares_outstanding[t] *
latest_price[t]` over the basket tickers present in the fetched prices; in
particular the value is exactly the base value when the two caps agree. -/
theorem C1_index_value_formula (s : ProgState) (frame : Nat)
    (prices : List (String × ℚ)) (daily : FetchResult) (now : String)
    (hne : prices ≠ [])
    (hsh : ∀ u ∈ s.tickers, dictContains prices u = true →
      (dictGet? s.store.shares_outstanding u).isSome = true)
    (hbase : s.store.base_market_cap ≠ 0) :
    (update s frame (.ok prices) daily now).index_values
      = (histAppend s.index_values s.timestamps
          (INDEX_BASE_VALUE *
            (capSum s.store.shares_outstanding prices s.tickers
              / s.store.base_market_cap)) now).1
    ∧ (capSum s.store.shares_outstanding prices s.tickers = s.store.base_market_cap →
        INDEX_BASE_VALUE *
          (capSum s.store.shares_outstanding prices s.tickers
            / s.store.base_market_cap) = INDEX_BASE_VALUE) := by
  have hres : resolveFetch (.ok prices) daily = .ok prices := by
    simp [resolveFetch, hne]
  have hsum := sumCapE_eq_capSum s.store.shares_outstanding prices s.tickers hsh
  constructor
  · rw [update_success s frame (.ok prices) daily now prices _ hres hne hsum]
    rfl
  · intro h
    rw [h, div_self hbase, mul_one]

/-- Witness for C1 at the spec's worked example: basket `[A, B]`, shares
`{A: 10, B: 5}`, base cap `2000`, live tick `A = 110, B = 200`: total cap
`2100` and index value `1050`. -/
theorem C1_index_value_formula_witness :
    (update exStateAB 0 (.ok [("A", 110), ("B", 200)]) .raises "10:00:00").index_values
      = [1050]
    ∧ capSum exStateAB.store.shares_outstanding [("A", 110), ("B", 200)]
        exStateAB.tickers = 2100 := by
  have hcap : capSum exStateAB.store.shares_outstanding [("A", 110), ("B", 200)]
      exStateAB.tickers = 2100 := by
    simp [capSum, dictContains, dictGet?, exStateAB] <;> norm_num
  have h := C1_index_value_formula exStateAB 0 [("A", 110), ("B", 200)] .raises
    "10:00:00" (by decide) (by decide) (by norm_num [exStateAB])
  refine ⟨?_, hcap⟩
  rw [h.1, hcap]
  simp [histAppend, MAX_DATAPOINTS, INDEX_BASE_VALUE, exStateAB] <;> norm_num

/-- Claim C2: after every mutation of the history the two buffers have the
same length, the length never exceeds `MAX_DATAPOINTS`, and on overflow the
oldest entries are dropped first: the kept lists are suffixes of the
appended lists, of length `min (old + 1) MAX_DATAPOINTS`. -/
theorem C2_history_invariant :
    (∀ (iv : List ℚ) (ts : List String) (v : ℚ) (t : String),
      iv.length = ts.length →
      (histAppend iv ts v t).1.length = (histAppend iv ts v t).2.length ∧
      (histAppend iv ts v t).1.length = min (iv.length + 1) MAX_DATAPOINTS ∧
      (histAppend iv ts v t).1.length ≤ MAX_DATAPOINTS ∧
      (histAppend iv ts v t).1 <:+ iv ++ [v] ∧
      (histAppend iv ts v t).2 <:+ ts ++ [t])
    ∧ (∀ (s : ProgState) (frame : Nat) (intraday daily : FetchResult) (now : String),
        s.index_values.length = s.timestamps.length →
        s.index_values.length ≤ MAX_DATAPOINTS →
        (update s frame intraday daily now).index_values.length
          = (update s frame intraday daily now).timestamps.length ∧
        (update s frame intraday daily now).index_values.length ≤ MAX_DATAPOINTS) := by
  constructor
  · intro iv ts v t h
    refine ⟨(histAppend_snd_length iv ts v t h).symm, histAppend_fst_length iv ts v t,
      ?_, histAppend_fst_suffix iv ts v t, histAppend_snd_suffix iv ts v t⟩
    rw [histAppend_fst_length iv ts v t]
    exact min_le_right _ _
  · intro s frame intraday daily now h1 h2
    rcases update_cases s frame intraday daily now with h | ⟨prices, c, _, _, _, h⟩
    · rw [h]; exact ⟨h1, h2⟩
    · rw [h]
      simp only [successState]
      constructor
      · exact (histAppend_snd_length _ _ _ _ h1).symm
      · rw [histAppend_fst_length]
        exact min_le_right _ _

/-- Witness for C2: a concrete append and a concrete update cycle on the
one-point state keep the two buffers aligned and within the bound. -/
theorem C2_history_invariant_witness :
    ((histAppend [(1050 : ℚ)] ["10:00:00"] 1100 "10:00:15").1.length
        = (histAppend [(1050 : ℚ)] ["10:00:00"] 1100 "10:00:15").2.length ∧
      (histAppend [(1050 : ℚ)] ["10:00:00"] 1100 "10:00:15").1.length
        = min (1 + 1) MAX_DATAPOINTS ∧
      (histAppend [(1050 : ℚ)] ["10:00:00"] 1100 "10:00:15").1.length
        ≤ MAX_DATAPOINTS ∧
      (histAppend [(1050 : ℚ)] ["10:00:00"] 1100 "10:00:15").1
        <:+ [(1050 : ℚ)] ++ [1100] ∧
      (histAppend [(1050 : ℚ)] ["10:00:00"] 1100 "10:00:15").2
        <:+ ["10:00:00"] ++ ["10:00:15"]) ∧
    ((update exStateAB1 1 (.ok [("A", 120), ("B", 200)]) .raises
        "10:00:15").index_values.length
      = (update exStateAB1 1 (.ok [("A", 120), ("B", 200)]) .raises
        "10:00:15").timestamps.length ∧
      (update exStateAB1 1 (.ok [("A", 120), ("B", 200)]) .raises
        "10:00:15").index_values.length ≤ MAX_DATAPOINTS) :=
  ⟨C2_history_invariant.1 [1050] ["10:00:00"] 1100 "10:00:15" rfl,
   C2_history_invariant.2 exStateAB1 1 (.ok [("A", 120), ("B", 200)]) .raises
     "10:00:15" rfl (by decide)⟩

/-- Claim C3: when the intraday fetch raises or returns empty, the cycle is
decided by the daily fallback exactly as if its data had been fetched
directly; and when the fallback returns empty too, the cycle performs no
mutation at all: the whole program state is unchanged. -/
theorem C3_fallback_then_skip :
    (∀ daily : FetchResult,
      resolveFetch .raises daily = fetchToExcept daily ∧
      resolveFetch (.ok []) daily = fetchToExcept daily)
    ∧ (∀ (s : ProgState) (frame : Nat) (now : String) (qs : List (String × ℚ))
        (daily' : FetchResult), qs ≠ [] →
        update s frame .raises (.ok qs) now = update s frame (.ok qs) daily' now ∧
        update s frame (.ok []) (.ok qs) now = update s frame (.ok qs) daily' now)
    ∧ (∀ (s : ProgState) (frame : Nat) (now : String),
        update s frame .raises (.ok []) now = s ∧
        update s frame (.ok []) (.ok []) now = s) := by
  refine ⟨fun daily => ⟨rfl, rfl⟩, ?_, ?_⟩
  · intro s frame now qs daily' hqs
    have h2 : resolveFetch (.ok qs) daily' = .ok qs := by
      simp [resolveFetch, hqs]
    have h1 : resolveFetch .raises (.ok qs) = .ok qs := rfl
    have h0 : resolveFetch (.ok []) (.ok qs) = .ok qs := rfl
    constructor
    · unfold update updateBody
      rw [h1, h2]
    · unfold update updateBody
      rw [h0, h2]
  · intro s frame now
    exact ⟨update_of_empty s frame .raises (.ok []) now rfl,
      update_of_empty s frame (.ok []) (.ok []) now rfl⟩

/-- Witness for C3: with an empty intraday table and the daily fallback
holding the example tick, the cycle equals the directly-fetched cycle. -/
theorem C3_fallback_then_skip_witness :
    update exStateAB 0 .raises (.ok [("A", 110), ("B", 200)]) "10:00:00"
      = update exStateAB 0 (.ok [("A", 110), ("B", 200)]) .raises "10:00:00" ∧
    update exStateAB 0 (.ok []) (.ok []) "10:00:00" = exStateAB :=
  ⟨(C3_fallback_then_skip.2.1 exStateAB 0 "10:00:00" [("A", 110), ("B", 200)]
      .raises (by decide)).1,
   (C3_fallback_then_skip.2.2 exStateAB 0 "10:00:00").2⟩

/-- Claim C4: any exception raised during an update cycle is caught rather
than propagated (`update` returns normally with the body's final state),
and on every well-formed state -- one whose per-ticker entries are aligned
the way startup creates them and every later cycle preserves them -- a
cycle that ends in an exception has mutated nothing: all raises (fetch
failures, `KeyError` in the cap sum or the sidebar lookups) happen before
the first mutation, since the float divisions of lines 109 and 127 never
raise.  The second and third conjuncts show the well-formedness hypothesis
covers every state the program can actually be in. -/
theorem C4_exceptions_caught_no_mutation :
    (∀ (s : ProgState) (frame : Nat) (intraday daily : FetchResult)
      (now : String) (s' : ProgState) (e : PyErr), sidebarSafe s →
      updateBody s frame intraday daily now = .error (s', e) →
      update s frame intraday daily now = s' ∧ s' = s) ∧
    (∀ (inp : InitInput) (tickers0 : List String) (s0 : ProgState),
      startup inp tickers0 = .ok s0 → sidebarSafe s0) ∧
    (∀ (s : ProgState) (frame : Nat) (intraday daily : FetchResult)
      (now : String), sidebarSafe s →
      sidebarSafe (update s frame intraday daily now)) := by
  refine ⟨?_, startup_sidebarSafe, update_sidebarSafe⟩
  intro s frame intraday daily now s' e hsafe h
  refine ⟨by unfold update; rw [h], ?_⟩
  exact updateBody_error_state_unchanged s frame intraday daily now s' e hsafe h

/-- Witness for C4 at the skipped-ticker scenario: fetching `C` raises a
`KeyError` in the cap sum; the exception is swallowed and the state is
exactly unchanged; the well-formedness hypothesis holds for the startup
state and survives a cycle. -/
theorem C4_exceptions_caught_no_mutation_witness :
    update dropBSkipCState 0 (.ok [("C", 200)]) .raises "10:00:00"
      = dropBSkipCState ∧
    sidebarSafe dropBSkipCState ∧
    sidebarSafe (update exStateAB 0 (.ok [("A", 110), ("B", 200)]) .raises
      "10:00:00") := by
  have h := C4_exceptions_caught_no_mutation.1 dropBSkipCState 0
    (.ok [("C", 200)]) .raises "10:00:00" dropBSkipCState (.keyError "C")
    (by decide) updateBody_dropC_eval
  exact ⟨h.1,
    C4_exceptions_caught_no_mutation.2.1 dropBSkipCInput ["A", "B", "C"]
      dropBSkipCState startup_dropBSkipC_eval,
    C4_exceptions_caught_no_mutation.2.2 exStateAB 0
      (.ok [("A", 110), ("B", 200)]) .raises "10:00:00" (by decide)⟩

/-- Counterexample to claim C5: ticker `B` is dropped during
initialization, yet its sidebar artists (created at figure-setup time,
before `initialize_index` runs) are still present, label text included, so
the dropped ticker does appear in the per-ticker sidebar. -/
theorem C5_dropped_ticker_in_sidebar_cex :
    startup dropBInput ["A", "B"] = .ok dropBState ∧
    dropBState.tickers = ["A"] ∧
    dictGet? dropBState.store.text_artists "B"
      = some { labelText := "B:",
               price := { shown := none, color := none },
               pct := { shown := none, color := none } } :=
  ⟨startup_dropB_eval, rfl, by decide⟩

/-- Claim C5 as amended: a ticker dropped during initialization is out of
the basket for good (no update puts it back), its stored shares can never
contribute a term to a later market-cap sum, and no update cycle ever
touches its sidebar artists; only its label, created before
initialization, remains on screen. -/
theorem C5_dropped_ticker_amended :
    ("B" ∉ dropBState.tickers) ∧
    (∀ (s : ProgState) (frame : Nat) (intraday daily : FetchResult) (now : String),
      (update s frame intraday daily now).tickers = s.tickers) ∧
    (∀ (shares prices : List (String × ℚ)) (tickers : List String) (t : String)
      (v : ℚ), t ∉ tickers →
      sumCapE (dictSet shares t v) prices tickers = sumCapE shares prices tickers) ∧
    (∀ (s : ProgState) (frame : Nat) (intraday daily : FetchResult) (now : String)
      (t : String), t ∉ s.tickers →
      dictGet? (update s frame intraday daily now).store.text_artists t
        = dictGet? s.store.text_artists t) := by
  refine ⟨by decide, update_tickers, sumCapE_dictSet_not_mem, ?_⟩
  intro s frame intraday daily now t ht
  rcases update_cases s frame intraday daily now with h | ⟨prices, c, _, _, _, h⟩
  · rw [h]
  · rw [h]
    simp only [successState]
    exact (runSidebar_lookup prices t s.tickers
      (fun u hu _ he => ht (he ▸ hu)) s.store).2

/-- Witness for the amended C5: after dropping `B`, one concrete cycle
leaves the basket, the cap sum and `B`'s artists untouched. -/
theorem C5_dropped_ticker_amended_witness :
    (update dropBState 0 (.ok [("A", 110)]) .raises "10:00:00").tickers
      = dropBState.tickers ∧
    sumCapE (dictSet dropBState.store.shares_outstanding "B" 999) [("A", 110)]
        dropBState.tickers
      = sumCapE dropBState.store.shares_outstanding [("A", 110)]
        dropBState.tickers ∧
    dictGet? (update dropBState 0 (.ok [("A", 110)]) .raises
        "10:00:00").store.text_artists "B"
      = dictGet? dropBState.store.text_artists "B" :=
  ⟨C5_dropped_ticker_amended.2.1 dropBState 0 (.ok [("A", 110)]) .raises "10:00:00",
   C5_dropped_ticker_amended.2.2.1 dropBState.store.shares_outstanding [("A", 110)]
     dropBState.tickers "B" 999 (by decide),
   C5_dropped_ticker_amended.2.2.2 dropBState 0 (.ok [("A", 110)]) .raises
     "10:00:00" "B" (by decide)⟩

/-- Claim C6: `initialize_index` raises exactly when the bulk history is
empty or shorter than two rows, or the base market cap accumulated by the
per-ticker loop is zero; per-ticker failures on their own never raise. -/
theorem C6_init_raises_iff (inp : InitInput) (s : ProgState) :
    (∃ e, initialize_index inp s = .error e) ↔
      (inp.histEmpty = true ∨ inp.histLen < 2 ∨
        (initLoop inp s.tickers.length s.tickers 0 s.store 0).2.2 = 0) := by
  unfold initialize_index
  by_cases h1 : inp.histEmpty = true ∨ inp.histLen < 2
  · rw [if_pos h1]
    exact ⟨fun _ => h1.elim .inl (fun b => .inr (.inl b)),
      fun _ => ⟨.connError, rfl⟩⟩
  · rw [if_neg h1]
    rcases hloop : initLoop inp s.tickers.length s.tickers 0 s.store 0
      with ⟨tks, st, tot⟩
    by_cases h2 : tot = 0
    · constructor
      · intro _
        exact .inr (.inr h2)
      · intro _
        exact ⟨.valueError, by simp [h2]⟩
    · constructor
      · rintro ⟨e, he⟩
        simp [h2] at he
      · intro hr
        rcases hr with ha | hb | hc
        · exact absurd (Or.inl ha) h1
        · exact absurd (Or.inr hb) h1
        · exact absurd hc h2

/-- Claim C7: when a ticker's shares-outstanding field is absent, the
shares figure stored and fed into the base-cap sum is its market cap
divided by its previous close. -/
theorem C7_shares_estimated_when_absent (inp : InitInput) (store : DataStore)
    (total : ℚ) (t : String) (info : TickerInfo) (m p pc : ℚ)
    (hinfo : dictGet? inp.info t = some info)
    (hnone : info.sharesOutstanding = none)
    (hm : info.marketCap = some m)
    (hp : info.previousClose = some p) (hp0 : p ≠ 0)
    (hpc : dictGet? inp.histClose t = some pc) :
    processTicker inp store total t =
      .ok ({ store with
             shares_outstanding := dictSet store.shares_outstanding t (m / p),
             prev_close := dictSet store.prev_close t pc,
             last_price := dictSet store.last_price t pc },
           total + m / p * pc) ∧
    dictGet? (dictSet store.shares_outstanding t (m / p)) t = some (m / p) := by
  constructor
  · simp only [processTicker, pyGet, hinfo, hnone, hm, hp, hpc, sharesOf,
      estimateShares]
    simp [hp0]
  · exact dictGet?_dictSet_self store.shares_outstanding t (m / p)

/-- Witness for C7: a ticker `X` with no shares-outstanding field, market
cap `3000` and previous close `30` is stored with `3000 / 30` shares. -/
theorem C7_shares_estimated_when_absent_witness :
    processTicker ⟨false, 5, [("X", ⟨none, some 3000, some 30⟩)], [("X", 25)]⟩
        ⟨[], 0, [], [], []⟩ 0 "X" =
      .ok (⟨[("X", 3000 / 30)], 0, [("X", 25)], [("X", 25)], []⟩,
           0 + 3000 / 30 * 25) ∧
    dictGet? (dictSet ([] : List (String × ℚ)) "X" (3000 / 30)) "X"
      = some (3000 / 30) :=
  C7_shares_estimated_when_absent
    ⟨false, 5, [("X", ⟨none, some 3000, some 30⟩)], [("X", 25)]⟩
    ⟨[], 0, [], [], []⟩ 0 "X" ⟨none, some 3000, some 30⟩ 3000 30 25
    (by simp [dictGet?]) rfl rfl rfl (by norm_num) (by simp [dictGet?])

/-- Counterexample to claim C8: the first successful cycle from an empty
history leaves one point; the x-axis is then `[0, 1]`, not
`[0, len - 1] = [0, 0]`, and the y-axis is left at its previous limits
instead of the padded `[min - p, max + p]` band. -/
theorem C8_first_point_axes_cex :
    update exStateAB 0 (.ok [("A", 110), ("B", 200)]) .raises "10:00:00"
      = exStateAB1 ∧
    exStateAB1.index_values.length = 1 ∧
    exStateAB1.chart.xlim = (0, 1) ∧
    exStateAB1.chart.xlim ≠ (0, (exStateAB1.index_values.length : ℤ) - 1) ∧
    exStateAB1.chart.ylim = (0, 1) ∧
    exStateAB1.chart.ylim
      ≠ (listMin exStateAB1.index_values
           - ((listMax exStateAB1.index_values - listMin exStateAB1.index_values)
               * (1 / 10) + 1 / 100),
         listMax exStateAB1.index_values
           + ((listMax exStateAB1.index_values - listMin exStateAB1.index_values)
               * (1 / 10) + 1 / 100)) := by
  refine ⟨update_exAB_eval, rfl, rfl, by decide, rfl, ?_⟩
  simp [exStateAB1, listMin, listMax]
  norm_num

/-- Claim C8 as amended: after a successful cycle the line carries the
history, the x-axis spans `[0, max (len - 1) 1]`, and the y-axis spans the
ten-percent-plus-epsilon padded band only once the history holds more than
one point; with exactly one point the y-axis is left unchanged. -/
theorem C8_axes_amended (s : ProgState) (frame : Nat)
    (intraday daily : FetchResult) (now : String) (prices : List (String × ℚ))
    (c : ℚ) (hres : resolveFetch intraday daily = .ok prices) (hne : prices ≠ [])
    (hsum : sumCapE s.store.shares_outstanding prices s.tickers = .ok c)
    (hbase : s.store.base_market_cap ≠ 0) :
    (update s frame intraday daily now).chart.lineData
      = (update s frame intraday daily now).index_values ∧
    (update s frame intraday daily now).chart.xlim
      = (0, max (((update s frame intraday daily now).index_values.length : ℤ) - 1) 1) ∧
    (1 < (update s frame intraday daily now).index_values.length →
      (update s frame intraday daily now).chart.ylim
        = (listMin (update s frame intraday daily now).index_values
             - ((listMax (update s frame intraday daily now).index_values
                  - listMin (update s frame intraday daily now).index_values)
                 * (1 / 10) + 1 / 100),
           listMax (update s frame intraday daily now).index_values
             + ((listMax (update s frame intraday daily now).index_values
                  - listMin (update s frame intraday daily now).index_values)
                 * (1 / 10) + 1 / 100))) ∧
    ((update s frame intraday daily now).index_values.length = 1 →
      (update s frame intraday daily now).chart.ylim = s.chart.ylim) := by
  rw [update_success s frame intraday daily now prices c hres hne hsum]
  simp only [successState]
  obtain ⟨h1, h2, h3, h4⟩ := chartUpdate_spec s.chart
    (histAppend s.index_values s.timestamps
      (INDEX_BASE_VALUE * (c / s.store.base_market_cap)) now).1
  exact ⟨h1, h2, h3, fun hlen => h4 (by omega)⟩

/-- Witness for the amended C8: a second cycle on the one-point state sets
the x-axis to `[0, 1]` and the y-axis to the padded band. -/
theorem C8_axes_amended_witness :
    (update exStateAB1 1 (.ok [("A", 120), ("B", 200)]) .raises
        "10:00:15").index_values.length = 2 ∧
    (update exStateAB1 1 (.ok [("A", 120), ("B", 200)]) .raises
        "10:00:15").chart.xlim
      = (0, max (((update exStateAB1 1 (.ok [("A", 120), ("B", 200)]) .raises
          "10:00:15").index_values.length : ℤ) - 1) 1) ∧
    (update exStateAB1 1 (.ok [("A", 120), ("B", 200)]) .raises
        "10:00:15").chart.ylim
      = (listMin (update exStateAB1 1 (.ok [("A", 120), ("B", 200)]) .raises
            "10:00:15").index_values
           - ((listMax (update exStateAB1 1 (.ok [("A", 120), ("B", 200)]) .raises
                  "10:00:15").index_values
                - listMin (update exStateAB1 1 (.ok [("A", 120), ("B", 200)]) .raises
                  "10:00:15").index_values) * (1 / 10) + 1 / 100),
         listMax (update exStateAB1 1 (.ok [("A", 120), ("B", 200)]) .raises
            "10:00:15").index_values
           + ((listMax (update exStateAB1 1 (.ok [("A", 120), ("B", 200)]) .raises
                  "10:00:15").index_values
                - listMin (update exStateAB1 1 (.ok [("A", 120), ("B", 200)]) .raises
                  "10:00:15").index_values) * (1 / 10) + 1 / 100)) := by
  have hsum : sumCapE exStateAB1.store.shares_outstanding [("A", 120), ("B", 200)]
      exStateAB1.tickers = .ok 2200 := by
    simp [sumCapE, pyGet, dictGet?, dictContains, exStateAB1]
    all_goals norm_num
  have hbase : exStateAB1.store.base_market_cap ≠ 0 := by norm_num [exStateAB1]
  have h := C8_axes_amended exStateAB1 1 (.ok [("A", 120), ("B", 200)]) .raises
    "10:00:15" [("A", 120), ("B", 200)] 2200 rfl (by decide) hsum hbase
  have hlen : (update exStateAB1 1 (.ok [("A", 120), ("B", 200)]) .raises
      "10:00:15").index_values.length = 2 := by
    rw [update_success exStateAB1 1 (.ok [("A", 120), ("B", 200)]) .raises
      "10:00:15" [("A", 120), ("B", 200)] 2200 rfl (by decide) hsum]
    simp [successState, histAppend, exStateAB1, MAX_DATAPOINTS]
  exact ⟨hlen, h.2.1, h.2.2.1 (by rw [hlen]; norm_num)⟩

/-- Claim C9: removing a ticker from the basket mid-iteration during
initialization makes the loop skip the ticker that slides into its slot:
that ticker stays in the basket with no per-ticker entries, every update
leaves the basket and the shares table as they are, and any cycle whose
fetched prices contain such an entryless basket ticker raises `KeyError`
in the cap sum, is caught, and leaves the whole state unchanged. -/
theorem C9_removal_skips_next :
    (startup dropBSkipCInput ["A", "B", "C"] = .ok dropBSkipCState ∧
     dropBSkipCState.tickers = ["A", "C"] ∧
     dictGet? dropBSkipCState.store.shares_outstanding "C" = none ∧
     dictGet? dropBSkipCState.store.prev_close "C" = none ∧
     dictGet? dropBSkipCState.store.last_price "C" = none) ∧
    (∀ (s : ProgState) (frame : Nat) (intraday daily : FetchResult) (now : String),
      (update s frame intraday daily now).tickers = s.tickers ∧
      (update s frame intraday daily now).store.shares_outstanding
        = s.store.shares_outstanding) ∧
    (∀ (s : ProgState) (frame : Nat) (intraday daily : FetchResult) (now : String)
      (prices : List (String × ℚ)) (t : String),
      resolveFetch intraday daily = .ok prices →
      dictContains prices t = true →
      t ∈ s.tickers →
      dictGet? s.store.shares_outstanding t = none →
      update s frame intraday daily now = s) := by
  refine ⟨⟨startup_dropBSkipC_eval, rfl, by decide, by decide, by decide⟩,
    fun s frame intraday daily now =>
      ⟨update_tickers s frame intraday daily now,
       update_shares s frame intraday daily now⟩, ?_⟩
  intro s frame intraday daily now prices t hres hc hmem hsh
  obtain ⟨e, he⟩ := sumCapE_error_of_missing s.store.shares_outstanding prices
    s.tickers t hmem hc hsh
  exact update_of_sum_error s frame intraday daily now prices e hres
    (ne_nil_of_contains prices t hc) he

/-- Witness for C9: `C` is still in the basket after `B` was dropped, and a
cycle whose fetch contains `C` changes nothing at all. -/
theorem C9_removal_skips_next_witness :
    "C" ∈ dropBSkipCState.tickers ∧
    update dropBSkipCState 0 (.ok [("A", 110), ("C", 200)]) .raises "10:00:00"
      = dropBSkipCState :=
  ⟨by decide,
   C9_removal_skips_next.2.2 dropBSkipCState 0 (.ok [("A", 110), ("C", 200)])
     .raises "10:00:00" [("A", 110), ("C", 200)] "C" rfl (by decide) (by decide)
     (by decide)⟩

/-- Claim C10: a basket ticker absent from the fetched prices keeps its
stored last price and its sidebar artists through the cycle, its shares
entry cannot contribute a term to the cap sum, and the cycle still appends
the index value computed from the tickers that are present. -/
theorem C10_absent_ticker_untouched (s : ProgState) (frame : Nat)
    (intraday daily : FetchResult) (now : String) (prices : List (String × ℚ))
    (c : ℚ) (t : String)
    (hres : resolveFetch intraday daily = .ok prices) (hne : prices ≠ [])
    (hsum : sumCapE s.store.shares_outstanding prices s.tickers = .ok c)
    (hbase : s.store.base_market_cap ≠ 0)
    (ht : dictContains prices t = false) :
    dictGet? (update s frame intraday daily now).store.last_price t
      = dictGet? s.store.last_price t ∧
    dictGet? (update s frame intraday daily now).store.text_artists t
      = dictGet? s.store.text_artists t ∧
    (∀ v : ℚ, sumCapE (dictSet s.store.shares_outstanding t v) prices s.tickers
      = .ok c) ∧
    (update s frame intraday daily now).index_values
      = (histAppend s.index_values s.timestamps
          (INDEX_BASE_VALUE * (c / s.store.base_market_cap)) now).1 := by
  rw [update_success s frame intraday daily now prices c hres hne hsum]
  simp only [successState]
  have hlook := runSidebar_lookup prices t s.tickers
    (fun u _ hpu => dictContains_ne_of_not_contains prices u t hpu ht) s.store
  exact ⟨hlook.1, hlook.2,
    fun v => by
      rw [sumCapE_dictSet_absent s.store.shares_outstanding prices s.tickers t v ht,
        hsum],
    trivial⟩

/-- Witness for C10: with only `A` in the fetch, `B`'s last price and
artists survive the cycle, its shares entry is irrelevant to the sum, and
the value `1000 * 1100 / 2000` is appended. -/
theorem C10_absent_ticker_untouched_witness :
    dictGet? (update exStateAB 0 (.ok [("A", 110)]) .raises
        "10:00:00").store.last_price "B"
      = dictGet? exStateAB.store.last_price "B" ∧
    dictGet? (update exStateAB 0 (.ok [("A", 110)]) .raises
        "10:00:00").store.text_artists "B"
      = dictGet? exStateAB.store.text_artists "B" ∧
    sumCapE (dictSet exStateAB.store.shares_outstanding "B" 999) [("A", 110)]
        exStateAB.tickers = .ok 1100 ∧
    (update exStateAB 0 (.ok [("A", 110)]) .raises "10:00:00").index_values
      = (histAppend exStateAB.index_values exStateAB.timestamps
          (INDEX_BASE_VALUE * (1100 / exStateAB.store.base_market_cap))
          "10:00:00").1 := by
  have h := C10_absent_ticker_untouched exStateAB 0 (.ok [("A", 110)]) .raises
    "10:00:00" [("A", 110)] 1100 "B" rfl (by decide)
    (by simp [sumCapE, pyGet, dictGet?, dictContains, exStateAB]
        all_goals norm_num)
    (by norm_num [exStateAB]) (by decide)
  exact ⟨h.1, h.2.1, h.2.2.1 999, h.2.2.2⟩

end AI10
